import Mathlib

/-!
Shallow embedding of `src/Version02_Traffic.cpp` (Traffic-Aggregator).

The program runs `SENSOR_COUNT` sensor loops that sleep a fixed interval,
sample a density in [10, 100], and append a `TrafficData` record to a
shared vector under a mutex; a logger loop waits on a condition variable
with a timeout, swaps the shared vector out under the mutex (drain), and,
when the drained batch is non-empty, folds over it accumulating
`total`, `min_val` (seeded 100), `max_val` (seeded 0), emitting an alert
for every density strictly above `CONGESTION_THRESHOLD`, then writes one
summary line with `total / size` (C++ truncating division), the min and
the max.  Shutdown is an atomic bool set once in `main`, read at the top
of every loop.

Machine integers are modelled as `Int` (no overflow is reachable with the
generator's [10,100] range and the program's batch sizes); the mutex is
modelled by serialising buffer operations into a list of operations;
time is modelled in milliseconds on a discrete clock.
-/

/-- Source constant `SENSOR_COUNT` (line 16). -/
def SENSOR_COUNT : Nat := 5

/-- Source constant `SENSOR_UPDATE_INTERVAL`, in milliseconds (line 17). -/
def SENSOR_UPDATE_INTERVAL : Nat := 1500

/-- Source constant `AGGREGATION_INTERVAL`, in milliseconds (line 18). -/
def AGGREGATION_INTERVAL : Nat := 3000

/-- Source constant `CONGESTION_THRESHOLD` (line 19). -/
def CONGESTION_THRESHOLD : Int := 80

/-- Struct `TrafficData` (lines 21-25): sensor id, density reading, and a
capture timestamp (modelled as an abstract `Nat`). -/
structure TrafficData where
  sensor_id : Int
  density : Int
  timestamp : Nat
deriving Repr, DecidableEq

/-- Body of `aggregator_callback` (lines 49-55): under the mutex, push one
reading onto the shared vector. -/
def buffer_append (buf : List TrafficData) (d : TrafficData) : List TrafficData :=
  buf ++ [d]

/-- Drain step of `logger_task` (lines 71-75): under the mutex, swap the shared
vector with an empty local one, returning the drained batch and the new
(empty) buffer contents. -/
def drain_all (buf : List TrafficData) : List TrafficData × List TrafficData :=
  (buf, [])

/-- One serialised operation on the shared buffer.  The `data_mutex` makes
every `aggregator_callback` push and every drain mutually exclusive, so any
concurrent execution is some interleaving, i.e. some `List BufOp`. -/
inductive BufOp where
  | append (d : TrafficData)
  | drain
deriving Repr, DecidableEq

/-- Run a serialised sequence of buffer operations from a starting buffer,
returning the final buffer contents and the list of drained batches in
order. -/
def run_ops : List BufOp → List TrafficData → List TrafficData × List (List TrafficData)
  | [], buf => (buf, [])
  | BufOp.append d :: rest, buf => run_ops rest (buffer_append buf d)
  | BufOp.drain :: rest, buf =>
      let p := drain_all buf
      let r := run_ops rest p.2
      (r.1, p.1 :: r.2)

/-- Readings appended over a sequence of buffer operations, in order. -/
def appended : List BufOp → List TrafficData
  | [] => []
  | BufOp.append d :: rest => d :: appended rest
  | BufOp.drain :: rest => appended rest

/-- Operations the program performs on `shutdown_flag` (line 30): the single
store of `true` in `main` (line 111) and the loads at the loop tops.  No
store of `false` exists anywhere in the program after initialisation. -/
inductive FlagOp where
  | signal_stop
  | load
deriving Repr, DecidableEq

/-- Effect of one flag operation on the flag's value. -/
def flag_step (s : Bool) (op : FlagOp) : Bool :=
  match op with
  | FlagOp.signal_stop => true
  | FlagOp.load => s

/-- Flag value after a sequence of operations starting from value `s`. -/
def flag_run (ops : List FlagOp) (s : Bool) : Bool :=
  ops.foldl flag_step s

/-- Initial value of `shutdown_flag` (line 30: `= false`). -/
def flag_init : Bool := false

/-- Observable output of one logger cycle: an alert line on `cerr`
(lines 84-85) or a summary line written to the log file (line 91). -/
inductive Event where
  | alert (sensor_id : Int) (density : Int)
  | sink (avg : Int) (min_val : Int) (max_val : Int)
deriving Repr, DecidableEq

/-- Accumulator state of the `for` loop over the drained batch
(lines 78-88): `total`, `min_val` seeded 100, `max_val` seeded 0, and the
alerts emitted so far, in order. -/
structure Accum where
  total : Int
  min_val : Int
  max_val : Int
  alerts : List Event
deriving Repr, DecidableEq

/-- Loop entry state: `int total = 0, min_val = 100, max_val = 0;`
(line 78), no alerts yet. -/
def init_accum : Accum := ⟨0, 100, 0, []⟩

/-- Body of the `for` loop over the drained batch (lines 79-88). -/
def process_reading (acc : Accum) (d : TrafficData) : Accum :=
  { total := acc.total + d.density
    min_val := min acc.min_val d.density
    max_val := max acc.max_val d.density
    alerts := acc.alerts ++
      (if d.density > CONGESTION_THRESHOLD then [Event.alert d.sensor_id d.density] else []) }

/-- Folding the loop body over the whole drained batch. -/
def aggregate (batch : List TrafficData) : Accum :=
  batch.foldl process_reading init_accum

/-- Summary of one non-empty cycle, as the spec names it: the count used as
the divisor (`local_data.size()`, line 90), the truncating average
(`total / size`, C++ `/` on `int`, i.e. `Int.tdiv`), and the accumulated
extremes written on line 91. -/
structure Summary where
  count : Nat
  average : Int
  min : Int
  max : Int
deriving Repr, DecidableEq

/-- Summary the logger produces for a drained batch: `none` when the batch
is empty (the `if (!local_data.empty())` guard, line 77), otherwise the
count/average/min/max of lines 78-91. -/
def logger_summary (batch : List TrafficData) : Option Summary :=
  if batch.isEmpty then none
  else
    some ⟨batch.length,
          Int.tdiv (aggregate batch).total (batch.length : Int),
          (aggregate batch).min_val,
          (aggregate batch).max_val⟩

/-- Ordered observable outputs of one logger cycle on a drained batch: the
alerts emitted inside the loop (lines 83-87), then the single summary line
(line 91); an empty batch produces nothing (line 77). -/
def cycle_events (batch : List TrafficData) : List Event :=
  if batch.isEmpty then []
  else
    (aggregate batch).alerts ++
      [Event.sink (Int.tdiv (aggregate batch).total (batch.length : Int))
        (aggregate batch).min_val (aggregate batch).max_val]

/-- Trace event of the logger loop (lines 65-94): a wake from
`cv.wait_for`, a drain with the batch it removed, a cycle output, or the
exit taken at the top-of-loop `shutdown_flag` check. -/
inductive LogEvent where
  | wake
  | drain (batch : List TrafficData)
  | out (e : Event)
  | stopped
deriving Repr, DecidableEq

/-- Trace of the logger loop for a schedule `iters`: element `i` of `iters`
is the buffer contents at the loop's `i`-th drain; the loop exits at the
first top-of-loop check at which `shutdown_flag` reads true, i.e. after
`iters.length` full iterations.  Mirrors the `while (!shutdown_flag.load())`
structure: the flag is checked only at the top, and each iteration is
wait, drain, process. -/
def logger_run : List (List TrafficData) → List LogEvent
  | [] => [LogEvent.stopped]
  | b :: rest =>
      LogEvent.wake :: LogEvent.drain b ::
        ((cycle_events b).map LogEvent.out ++ logger_run rest)

/-- Trace event of the logger loop with each output tagged by whether its
delivery (the `cerr` or `ofstream` write) succeeded.  A failed stream write
in C++ sets the stream's failbit and nothing in lines 65-94 ever reads it,
so the outcome is recorded but has no effect on control flow. -/
inductive LogEventF where
  | wake
  | drain (batch : List TrafficData)
  | out (e : Event) (delivered : Bool)
  | stopped
deriving Repr, DecidableEq

/-- Emit a cycle's outputs, consuming one delivery outcome from the oracle
`ok` per output, starting at oracle index `k`. -/
def out_events_f (ok : Nat → Bool) : Nat → List Event → List LogEventF
  | _, [] => []
  | k, e :: es => LogEventF.out e (ok k) :: out_events_f ok (k + 1) es

/-- Logger-loop trace with delivery outcomes drawn from the oracle `ok`
(index `k` is the number of outputs already attempted).  The definition has
no branch on any outcome, exactly as the source has no check of any stream
write. -/
def logger_run_f (ok : Nat → Bool) : Nat → List (List TrafficData) → List LogEventF
  | _, [] => [LogEventF.stopped]
  | k, b :: rest =>
      LogEventF.wake :: LogEventF.drain b ::
        (out_events_f ok k (cycle_events b) ++
          logger_run_f ok (k + (cycle_events b).length) rest)

/-- Forget delivery outcomes. -/
def eraseF : LogEventF → LogEvent
  | LogEventF.wake => LogEvent.wake
  | LogEventF.drain b => LogEvent.drain b
  | LogEventF.out e _ => LogEvent.out e
  | LogEventF.stopped => LogEvent.stopped

/-- Sensor loop `sensor_task` (lines 40-46) on a millisecond clock, with the
stop signal set at absolute time `t`: at each top of loop the flag is read
(true iff the clock has reached `t`); if clear, the task sleeps
`SENSOR_UPDATE_INTERVAL` ms (`std::this_thread::sleep_for`, a plain
non-interruptible sleep) and then samples and appends one reading.  Returns
the list of append times and the clock value at loop exit.  `fuel` bounds
the number of iterations modelled; every theorem supplies enough fuel for
the loop to reach its exit. -/
def sensor_loop (t : Nat) : Nat → Nat → List Nat × Nat
  | 0, clock => ([], clock)
  | fuel + 1, clock =>
      if t ≤ clock then ([], clock)
      else
        let r := sensor_loop t fuel (clock + SENSOR_UPDATE_INTERVAL)
        ((clock + SENSOR_UPDATE_INTERVAL) :: r.1, r.2)

/-- Folding the loop body accumulates the sum of the densities. -/
theorem foldl_total (batch : List TrafficData) : ∀ acc : Accum,
    (batch.foldl process_reading acc).total = acc.total + (batch.map TrafficData.density).sum := by
  induction batch with
  | nil => intro acc; simp
  | cons d ds ih =>
      intro acc
      simp [List.foldl_cons, ih, process_reading, add_assoc]

/-- Folding the loop body computes a running minimum of the densities. -/
theorem foldl_minval (batch : List TrafficData) : ∀ acc : Accum,
    (batch.foldl process_reading acc).min_val = (batch.map TrafficData.density).foldl min acc.min_val := by
  induction batch with
  | nil => intro acc; simp
  | cons d ds ih => intro acc; simp [List.foldl_cons, ih, process_reading]

/-- Folding the loop body computes a running maximum of the densities. -/
theorem foldl_maxval (batch : List TrafficData) : ∀ acc : Accum,
    (batch.foldl process_reading acc).max_val = (batch.map TrafficData.density).foldl max acc.max_val := by
  induction batch with
  | nil => intro acc; simp
  | cons d ds ih => intro acc; simp [List.foldl_cons, ih, process_reading]

/-- Folding the loop body emits, after any alerts already accumulated, one
alert per reading above the threshold, in batch order. -/
theorem foldl_alerts (batch : List TrafficData) : ∀ acc : Accum,
    (batch.foldl process_reading acc).alerts = acc.alerts ++
      (batch.filter (fun d => decide (d.density > CONGESTION_THRESHOLD))).map
        (fun d => Event.alert d.sensor_id d.density) := by
  induction batch with
  | nil => intro acc; simp
  | cons d ds ih =>
      intro acc
      by_cases hd : d.density > CONGESTION_THRESHOLD
      · simp [List.foldl_cons, ih, process_reading, hd, List.filter_cons]
      · simp [List.foldl_cons, ih, process_reading, hd, List.filter_cons]

/-- Pulling a `min` out of a left fold of `min`. -/
theorem foldl_min_comm (l : List Int) : ∀ a b : Int,
    l.foldl min (min a b) = min a (l.foldl min b) := by
  induction l with
  | nil => intro a b; rfl
  | cons c l ih =>
      intro a b
      show l.foldl min (min (min a b) c) = min a (l.foldl min (min b c))
      rw [min_assoc, ih]

/-- Pulling a `max` out of a left fold of `max`. -/
theorem foldl_max_comm (l : List Int) : ∀ a b : Int,
    l.foldl max (max a b) = max a (l.foldl max b) := by
  induction l with
  | nil => intro a b; rfl
  | cons c l ih =>
      intro a b
      show l.foldl max (max (max a b) c) = max a (l.foldl max (max b c))
      rw [max_assoc, ih]

/-- A left fold of `min` never exceeds its seed. -/
theorem foldl_min_le_seed (l : List Int) : ∀ a : Int, l.foldl min a ≤ a := by
  induction l with
  | nil => intro a; exact le_refl a
  | cons c l ih =>
      intro a
      exact le_trans (ih (min a c)) (min_le_left a c)

/-- A left fold of `min` is a lower bound of the list. -/
theorem foldl_min_le_mem (l : List Int) : ∀ (a x : Int), x ∈ l → l.foldl min a ≤ x := by
  induction l with
  | nil => intro a x hx; cases hx
  | cons c l ih =>
      intro a x hx
      rcases List.mem_cons.mp hx with h | h
      · subst h
        exact le_trans (foldl_min_le_seed l (min a x)) (min_le_right a x)
      · exact ih (min a c) x h

/-- A left fold of `min` is either the seed or attained in the list. -/
theorem foldl_min_attained (l : List Int) : ∀ a : Int,
    l.foldl min a = a ∨ l.foldl min a ∈ l := by
  induction l with
  | nil => intro a; exact Or.inl rfl
  | cons c l ih =>
      intro a
      rcases ih (min a c) with h | h
      · rcases min_choice a c with hc | hc
        · exact Or.inl (by rw [List.foldl_cons, h, hc])
        · exact Or.inr (by rw [List.foldl_cons, h, hc]; exact List.mem_cons_self c l)
      · exact Or.inr (List.mem_cons_of_mem c h)

/-- A left fold of `max` is at least its seed. -/
theorem foldl_seed_le_max (l : List Int) : ∀ a : Int, a ≤ l.foldl max a := by
  induction l with
  | nil => intro a; exact le_refl a
  | cons c l ih =>
      intro a
      exact le_trans (le_max_left a c) (ih (max a c))

/-- A left fold of `max` is an upper bound of the list. -/
theorem foldl_mem_le_max (l : List Int) : ∀ (a x : Int), x ∈ l → x ≤ l.foldl max a := by
  induction l with
  | nil => intro a x hx; cases hx
  | cons c l ih =>
      intro a x hx
      rcases List.mem_cons.mp hx with h | h
      · subst h
        exact le_trans (le_max_right a x) (foldl_seed_le_max l (max a x))
      · exact ih (max a c) x h

/-- A left fold of `max` is either the seed or attained in the list. -/
theorem foldl_max_attained (l : List Int) : ∀ a : Int,
    l.foldl max a = a ∨ l.foldl max a ∈ l := by
  induction l with
  | nil => intro a; exact Or.inl rfl
  | cons c l ih =>
      intro a
      rcases ih (max a c) with h | h
      · rcases max_choice a c with hc | hc
        · exact Or.inl (by rw [List.foldl_cons, h, hc])
        · exact Or.inr (by rw [List.foldl_cons, h, hc]; exact List.mem_cons_self c l)
      · exact Or.inr (List.mem_cons_of_mem c h)

/-- C1: for every non-empty drained batch of readings (whose densities, as
produced by `generate_density`, lie in [10, 100]), the logger's summary has
count equal to the number of readings, average equal to the truncating
integer quotient of the density sum by the count, min equal to the smallest
density in the batch, and max equal to the largest. -/
theorem summary_correct (d0 : TrafficData) (ds : List TrafficData)
    (hr : ∀ d ∈ d0 :: ds, 10 ≤ d.density ∧ d.density ≤ 100) :
    ∃ s : Summary, logger_summary (d0 :: ds) = some s ∧
      s.count = (d0 :: ds).length ∧
      s.average = Int.tdiv (((d0 :: ds).map TrafficData.density).sum) (((d0 :: ds).length : Nat) : Int) ∧
      s.min ∈ (d0 :: ds).map TrafficData.density ∧
      (∀ d ∈ d0 :: ds, s.min ≤ d.density) ∧
      s.max ∈ (d0 :: ds).map TrafficData.density ∧
      (∀ d ∈ d0 :: ds, d.density ≤ s.max) := by
  have htot : (aggregate (d0 :: ds)).total = ((d0 :: ds).map TrafficData.density).sum := by
    simp [aggregate, foldl_total, init_accum, process_reading]
  have hmin : (aggregate (d0 :: ds)).min_val = ((d0 :: ds).map TrafficData.density).foldl min 100 := by
    simp [aggregate, foldl_minval, init_accum, process_reading]
  have hmax : (aggregate (d0 :: ds)).max_val = ((d0 :: ds).map TrafficData.density).foldl max 0 := by
    simp [aggregate, foldl_maxval, init_accum, process_reading]
  refine ⟨⟨(d0 :: ds).length,
          Int.tdiv (aggregate (d0 :: ds)).total (((d0 :: ds).length : Nat) : Int),
          (aggregate (d0 :: ds)).min_val,
          (aggregate (d0 :: ds)).max_val⟩,
      by simp [logger_summary], rfl, by rw [htot], ?_, ?_, ?_, ?_⟩
  · show (aggregate (d0 :: ds)).min_val ∈ (d0 :: ds).map TrafficData.density
    rw [hmin]
    rcases foldl_min_attained ((d0 :: ds).map TrafficData.density) 100 with h | h
    · have hle : ((d0 :: ds).map TrafficData.density).foldl min 100 ≤ d0.density :=
        foldl_min_le_mem _ 100 d0.density (by simp)
      rw [h] at hle
      have h100 : d0.density = 100 := le_antisymm (hr d0 (by simp)).2 hle
      rw [h, ← h100]
      exact List.mem_map_of_mem TrafficData.density (by simp)
    · exact h
  · show ∀ d ∈ d0 :: ds, (aggregate (d0 :: ds)).min_val ≤ d.density
    intro d hd
    rw [hmin]
    exact foldl_min_le_mem _ 100 d.density (List.mem_map_of_mem TrafficData.density hd)
  · show (aggregate (d0 :: ds)).max_val ∈ (d0 :: ds).map TrafficData.density
    rw [hmax]
    rcases foldl_max_attained ((d0 :: ds).map TrafficData.density) 0 with h | h
    · have hge : d0.density ≤ ((d0 :: ds).map TrafficData.density).foldl max 0 :=
        foldl_mem_le_max _ 0 d0.density (by simp)
      rw [h] at hge
      have h10 : (10 : Int) ≤ d0.density := (hr d0 (by simp)).1
      exact absurd hge (by omega)
    · exact h
  · show ∀ d ∈ d0 :: ds, d.density ≤ (aggregate (d0 :: ds)).max_val
    intro d hd
    rw [hmax]
    exact foldl_mem_le_max _ 0 d.density (List.mem_map_of_mem TrafficData.density hd)

/-- Witness for C1 at the spec's example batch with densities 10, 50, 90:
the summary is count 3, average 50, min 10, max 90. -/
theorem summary_correct_witness :
    logger_summary [⟨0, 10, 0⟩, ⟨1, 50, 0⟩, ⟨2, 90, 0⟩] = some ⟨3, 50, 10, 90⟩ ∧
    (∃ s : Summary, logger_summary [⟨0, 10, 0⟩, ⟨1, 50, 0⟩, ⟨2, 90, 0⟩] = some s ∧
      s.count = ([⟨0, 10, 0⟩, ⟨1, 50, 0⟩, ⟨2, 90, 0⟩] : List TrafficData).length ∧
      s.average = Int.tdiv ((([⟨0, 10, 0⟩, ⟨1, 50, 0⟩, ⟨2, 90, 0⟩] : List TrafficData).map TrafficData.density).sum)
        (((([⟨0, 10, 0⟩, ⟨1, 50, 0⟩, ⟨2, 90, 0⟩] : List TrafficData).length : Nat) : Int)) ∧
      s.min ∈ ([⟨0, 10, 0⟩, ⟨1, 50, 0⟩, ⟨2, 90, 0⟩] : List TrafficData).map TrafficData.density ∧
      (∀ d ∈ ([⟨0, 10, 0⟩, ⟨1, 50, 0⟩, ⟨2, 90, 0⟩] : List TrafficData), s.min ≤ d.density) ∧
      s.max ∈ ([⟨0, 10, 0⟩, ⟨1, 50, 0⟩, ⟨2, 90, 0⟩] : List TrafficData).map TrafficData.density ∧
      (∀ d ∈ ([⟨0, 10, 0⟩, ⟨1, 50, 0⟩, ⟨2, 90, 0⟩] : List TrafficData), d.density ≤ s.max)) :=
  ⟨by decide, summary_correct ⟨0, 10, 0⟩ [⟨1, 50, 0⟩, ⟨2, 90, 0⟩] (by decide)⟩

/-- C9: the reported minimum equals the smaller of 100 and the batch's true
minimum density, and the reported maximum equals the larger of 0 and the
batch's true maximum (the accumulators are seeded 100 and 0 on line 78);
when every density lies in [0, 100] the reported extremes are exact. -/
theorem minmax_clamped (d0 : TrafficData) (ds : List TrafficData) :
    (aggregate (d0 :: ds)).min_val = min 100 ((ds.map TrafficData.density).foldl min d0.density) ∧
    (aggregate (d0 :: ds)).max_val = max 0 ((ds.map TrafficData.density).foldl max d0.density) ∧
    ((∀ d ∈ d0 :: ds, 0 ≤ d.density ∧ d.density ≤ 100) →
      (aggregate (d0 :: ds)).min_val = (ds.map TrafficData.density).foldl min d0.density ∧
      (aggregate (d0 :: ds)).max_val = (ds.map TrafficData.density).foldl max d0.density) := by
  have hmin : (aggregate (d0 :: ds)).min_val
      = min 100 ((ds.map TrafficData.density).foldl min d0.density) := by
    have h1 : (aggregate (d0 :: ds)).min_val = ((d0 :: ds).map TrafficData.density).foldl min 100 := by
      simp [aggregate, foldl_minval, init_accum, process_reading]
    rw [h1, List.map_cons, List.foldl_cons]
    exact foldl_min_comm (ds.map TrafficData.density) 100 d0.density
  have hmax : (aggregate (d0 :: ds)).max_val
      = max 0 ((ds.map TrafficData.density).foldl max d0.density) := by
    have h1 : (aggregate (d0 :: ds)).max_val = ((d0 :: ds).map TrafficData.density).foldl max 0 := by
      simp [aggregate, foldl_maxval, init_accum, process_reading]
    rw [h1, List.map_cons, List.foldl_cons]
    exact foldl_max_comm (ds.map TrafficData.density) 0 d0.density
  refine ⟨hmin, hmax, fun hrange => ⟨?_, ?_⟩⟩
  · rw [hmin]
    exact min_eq_right (le_trans (foldl_min_le_seed _ _) (hrange d0 (by simp)).2)
  · rw [hmax]
    exact max_eq_right (le_trans (hrange d0 (by simp)).1 (foldl_seed_le_max _ _))

/-- Witness for C9 at the two-reading batch with densities 90 and 20: the
reported extremes are 20 and 90. -/
theorem minmax_clamped_witness :
    (aggregate [⟨0, 90, 0⟩, ⟨1, 20, 0⟩]).min_val = 20 ∧
    (aggregate [⟨0, 90, 0⟩, ⟨1, 20, 0⟩]).max_val = 90 := by
  have h := (minmax_clamped ⟨0, 90, 0⟩ [⟨1, 20, 0⟩]).2.2 (by decide)
  exact ⟨h.1.trans (by decide), h.2.trans (by decide)⟩

/-- C5: in every cycle on a non-empty drained batch, the alerts are exactly
one `Event.alert` carrying the reading's sensor id and density for each
reading whose density strictly exceeds `CONGESTION_THRESHOLD` (80), in
batch order; readings at or below the threshold contribute none; and every
alert of the cycle precedes the cycle's single sink event. -/
theorem alerts_exact (d0 : TrafficData) (ds : List TrafficData) :
    (aggregate (d0 :: ds)).alerts =
      ((d0 :: ds).filter (fun d => decide (d.density > CONGESTION_THRESHOLD))).map
        (fun d => Event.alert d.sensor_id d.density) ∧
    cycle_events (d0 :: ds) =
      ((d0 :: ds).filter (fun d => decide (d.density > CONGESTION_THRESHOLD))).map
        (fun d => Event.alert d.sensor_id d.density) ++
      [Event.sink (Int.tdiv (aggregate (d0 :: ds)).total (((d0 :: ds).length : Nat) : Int))
        (aggregate (d0 :: ds)).min_val (aggregate (d0 :: ds)).max_val] := by
  have ha : (aggregate (d0 :: ds)).alerts =
      ((d0 :: ds).filter (fun d => decide (d.density > CONGESTION_THRESHOLD))).map
        (fun d => Event.alert d.sensor_id d.density) := by
    have := foldl_alerts (d0 :: ds) init_accum
    simpa [aggregate, init_accum] using this
  refine ⟨ha, ?_⟩
  rw [cycle_events]
  simp [ha]

/-- C6: a cycle whose drained batch is empty produces no summary and no
output events at all (the `if (!local_data.empty())` guard on line 77), and
the logger loop simply proceeds to its next iteration. -/
theorem empty_cycle_no_sink :
    cycle_events [] = [] ∧ logger_summary [] = none ∧
    ∀ iters : List (List TrafficData),
      logger_run ([] :: iters) = LogEvent.wake :: LogEvent.drain [] :: logger_run iters := by
  refine ⟨rfl, rfl, fun iters => ?_⟩
  simp [logger_run, cycle_events]

/-- C3: the logger checks `shutdown_flag` only at the top of its loop, so
in every terminating trace the final wake — the one after which the stop
signal is observed — is still followed by a drain of whatever readings
remain, and by that cycle's outputs, before the loop exits. -/
theorem final_drain_before_stop (iters : List (List TrafficData)) (last : List TrafficData) :
    ∃ pre : List LogEvent,
      logger_run (iters ++ [last]) =
        pre ++ (LogEvent.wake :: LogEvent.drain last ::
          ((cycle_events last).map LogEvent.out ++ [LogEvent.stopped])) := by
  induction iters with
  | nil => exact ⟨[], rfl⟩
  | cons b rest ih =>
      obtain ⟨pre, hp⟩ := ih
      refine ⟨LogEvent.wake :: LogEvent.drain b :: ((cycle_events b).map LogEvent.out ++ pre), ?_⟩
      simp [logger_run, hp]

/-- Forgetting delivery outcomes on a cycle's tagged outputs yields the
untagged outputs. -/
theorem out_events_erase (ok : Nat → Bool) (es : List Event) : ∀ k : Nat,
    (out_events_f ok k es).map eraseF = es.map LogEvent.out := by
  induction es with
  | nil => intro k; rfl
  | cons e es ih => intro k; simp [out_events_f, eraseF, ih]

/-- C7: whatever pattern of sink or alert delivery failures occurs, the
logger loop's trace — which cycles run, what each drains, which summaries
and alerts are computed — is unchanged: a failed write in one cycle never
aborts the loop nor affects any later cycle. -/
theorem delivery_failure_harmless (ok : Nat → Bool) (iters : List (List TrafficData)) : ∀ k : Nat,
    (logger_run_f ok k iters).map eraseF = logger_run iters := by
  induction iters with
  | nil => intro k; rfl
  | cons b rest ih =>
      intro k
      simp [logger_run_f, logger_run, eraseF, out_events_erase, ih]

/-- Accounting invariant of the serialised buffer: the drained batches in
order, followed by what is left in the buffer, are exactly the starting
contents followed by every appended reading, in order. -/
theorem run_ops_account (ops : List BufOp) : ∀ buf : List TrafficData,
    (run_ops ops buf).2.flatten ++ (run_ops ops buf).1 = buf ++ appended ops := by
  induction ops with
  | nil => intro buf; simp [run_ops, appended]
  | cons op rest ih =>
      intro buf
      cases op with
      | append d => simpa [run_ops, appended, buffer_append] using ih (buf ++ [d])
      | drain => simp [run_ops, appended, drain_all, ih []]

/-- Running a block of appends first just extends the buffer. -/
theorem run_ops_appends_then (l : List TrafficData) : ∀ (ops : List BufOp) (buf : List TrafficData),
    run_ops (l.map BufOp.append ++ ops) buf = run_ops ops (buf ++ l) := by
  induction l with
  | nil => intro ops buf; simp
  | cons d l ih => intro ops buf; simp [run_ops, buffer_append, ih]

/-- C2: under the mutex every concurrent execution is a serialisation of
buffer operations, and for every such serialisation from the empty buffer,
the concatenation of the drained batches plus the final buffer contents is
exactly the list of appended readings — so each appended reading is
delivered by exactly one drain (never twice, never dropped while buffered),
and each drain empties the buffer.  In particular a block of appends (e.g.
N producers times K readings) followed by a single drain returns exactly
those readings and leaves the buffer empty. -/
theorem drain_exactly_once :
    (∀ ops : List BufOp, (run_ops ops []).2.flatten ++ (run_ops ops []).1 = appended ops) ∧
    (∀ l : List TrafficData, run_ops (l.map BufOp.append ++ [BufOp.drain]) [] = ([], [l])) := by
  constructor
  · intro ops
    simpa using run_ops_account ops []
  · intro l
    rw [run_ops_appends_then]
    simp [run_ops, drain_all]

/-- C8: `shutdown_flag` starts false (line 30); the only store the program
contains is the single `shutdown_flag = true` in `main` (line 111), so the
flag is monotone — once true it stays true under any further operations —
and a second `signal_stop` is a no-op: it changes neither the flag nor any
subsequent observation. -/
theorem stop_signal_monotone_idempotent :
    flag_init = false ∧
    (∀ ops : List FlagOp, flag_run ops true = true) ∧
    (∀ (ops : List FlagOp) (s : Bool),
      flag_run (FlagOp.signal_stop :: FlagOp.signal_stop :: ops) s =
        flag_run (FlagOp.signal_stop :: ops) s) := by
  refine ⟨rfl, ?_, fun ops s => rfl⟩
  intro ops
  induction ops with
  | nil => rfl
  | cons op rest ih => cases op <;> exact ih

/-- Once the stop time has been reached, the sensor loop exits at its very
next top-of-loop check without sleeping or appending again. -/
theorem sensor_loop_stopped (t : Nat) : ∀ (fuel clock : Nat), t ≤ clock →
    sensor_loop t fuel clock = ([], clock) := by
  intro fuel clock h
  cases fuel with
  | zero => rfl
  | succ n => simp [sensor_loop, h]

/-- With the stop time still ahead of the current check and enough fuel to
reach it, exactly one of the sensor loop's appends lands at or after the
stop time: the one completing the sleep in progress when the flag was set. -/
theorem sensor_filter_one (t : Nat) : ∀ (fuel clock : Nat), clock < t →
    t ≤ clock + SENSOR_UPDATE_INTERVAL * fuel →
    ((sensor_loop t fuel clock).1.filter (fun a => decide (t ≤ a))).length = 1 := by
  intro fuel
  induction fuel with
  | zero =>
      intro clock h1 h2
      simp only [Nat.mul_zero, Nat.add_zero] at h2
      omega
  | succ n ih =>
      intro clock h1 h2
      have hnot : ¬ t ≤ clock := by omega
      rw [Nat.mul_succ] at h2
      by_cases hd : t ≤ clock + SENSOR_UPDATE_INTERVAL
      · have hr := sensor_loop_stopped t n (clock + SENSOR_UPDATE_INTERVAL) hd
        simp [sensor_loop, hnot, hr, List.filter_cons, hd]
      · have hlt : clock + SENSOR_UPDATE_INTERVAL < t := by omega
        have h2' : t ≤ clock + SENSOR_UPDATE_INTERVAL + SENSOR_UPDATE_INTERVAL * n := by omega
        have := ih (clock + SENSOR_UPDATE_INTERVAL) hlt h2'
        simp [sensor_loop, hnot, List.filter_cons, hd, this]

/-- C10: the sensor loop reads `shutdown_flag` only at the top of each
iteration, before its non-interruptible sleep; hence over any run reaching
the exit (enough fuel), at most one append lands at or after the moment the
stop signal is set, and when the signal arrives after the loop has begun
(in particular mid-sleep), exactly one more complete reading is appended
before the loop exits. -/
theorem producer_one_more_append (t fuel : Nat) (h : t ≤ SENSOR_UPDATE_INTERVAL * fuel) :
    ((sensor_loop t fuel 0).1.filter (fun a => decide (t ≤ a))).length ≤ 1 ∧
    (1 ≤ t → ((sensor_loop t fuel 0).1.filter (fun a => decide (t ≤ a))).length = 1) := by
  by_cases ht : 1 ≤ t
  · have h1 := sensor_filter_one t fuel 0 (by omega) (by simpa using h)
    exact ⟨h1.le, fun _ => h1⟩
  · have h0 : t = 0 := by omega
    subst h0
    rw [sensor_loop_stopped 0 fuel 0 (le_refl 0)]
    exact ⟨by simp, fun hx => absurd hx (by omega)⟩

/-- Witness for C10 with the stop signal set 1 ms into the first sleep:
the producer appends exactly one reading after the signal. -/
theorem producer_one_more_append_witness :
    ((sensor_loop 1 1 0).1.filter (fun a => decide (1 ≤ a))).length ≤ 1 ∧
    ((sensor_loop 1 1 0).1.filter (fun a => decide (1 ≤ a))).length = 1 :=
  ⟨(producer_one_more_append 1 1 (by decide)).1,
   (producer_one_more_append 1 1 (by decide)).2 (by decide)⟩

/-- C4 counterexample: the sensor loop's suspension is a plain
`std::this_thread::sleep_for`, not a wait cancellable by the stop signal.
With the stop signal set 1 ms into the first sleep (t = 1), the producer
exits only at its next top-of-loop check, at 1500 ms — 1499 ms later, far
beyond any wake-check tick (the spec's own test bound is 100 ms). -/
theorem producer_sleep_not_cancellable :
    (sensor_loop 1 2 0).2 = 1500 ∧ ¬ (sensor_loop 1 2 0).2 ≤ 1 + 100 := by decide

/-- With enough fuel to reach the exit, the sensor loop's exit check is at
most one full sleep interval after the stop time. -/
theorem sensor_exit_bound (t : Nat) : ∀ (fuel clock : Nat),
    t ≤ clock + SENSOR_UPDATE_INTERVAL * fuel → clock < t + SENSOR_UPDATE_INTERVAL →
    (sensor_loop t fuel clock).2 < t + SENSOR_UPDATE_INTERVAL := by
  intro fuel
  induction fuel with
  | zero => intro clock h1 h2; simpa [sensor_loop] using h2
  | succ n ih =>
      intro clock h1 h2
      rw [Nat.mul_succ] at h1
      by_cases hc : t ≤ clock
      · simpa [sensor_loop, hc] using h2
      · have := ih (clock + SENSOR_UPDATE_INTERVAL) (by omega) (by omega)
        simpa [sensor_loop, hc] using this

/-- No output event of a cycle is a wake. -/
theorem countP_wake_out (es : List Event) :
    (es.map LogEvent.out).countP (fun e => decide (e = LogEvent.wake)) = 0 := by
  induction es with
  | nil => rfl
  | cons e es ih => simp [List.countP_cons, ih]

/-- C4 amended: after the stop signal is set at time `t`, a producer does
not exit within a wake-check tick — its plain sleep is not cancellable —
but it does exit at its next top-of-loop check, strictly less than one full
`SENSOR_UPDATE_INTERVAL` after the signal; and the logger enters no further
wait after its final wake: its trace holds exactly one wake per completed
iteration, so once woken by the stop notification it drains, reports and
exits without waiting out another aggregation interval. -/
theorem shutdown_latency_amended (t fuel : Nat) (iters : List (List TrafficData))
    (h : t ≤ SENSOR_UPDATE_INTERVAL * fuel) :
    (sensor_loop t fuel 0).2 < t + SENSOR_UPDATE_INTERVAL ∧
    (logger_run iters).countP (fun e => decide (e = LogEvent.wake)) = iters.length := by
  constructor
  · have h0 : (0 : Nat) < t + SENSOR_UPDATE_INTERVAL := by
      have : (0 : Nat) < SENSOR_UPDATE_INTERVAL := by decide
      omega
    exact sensor_exit_bound t fuel 0 (by simpa using h) h0
  · induction iters with
    | nil => rfl
    | cons b rest ih =>
        simp [logger_run, List.countP_cons, List.countP_append, countP_wake_out, ih]

/-- Witness for the amended C4 with the stop signal set 1 ms into the first
sleep and a one-iteration logger schedule. -/
theorem shutdown_latency_amended_witness :
    (sensor_loop 1 1 0).2 < 1 + SENSOR_UPDATE_INTERVAL ∧
    (logger_run ([[]] : List (List TrafficData))).countP (fun e => decide (e = LogEvent.wake)) =
      ([[]] : List (List TrafficData)).length :=
  shutdown_latency_amended 1 1 [[]] (by decide)
